import Mathlib

/-!
Verification of the loop-closing engine of the stereo_slam repository
(`src/loop_closing.cpp`) against its natural-language specification.

Shallow embedding conventions:
* machine floats (`float`, `cv::Point2f`, `cv::Point3f`, hash signatures)
  are modelled by rationals `ℚ`;
* C++ `int` ids are modelled by `Nat` (the front-end assigns them
  monotonically from 0, and the code indexes vectors with them);
* the filesystem used by `readCluster` / `processNewCluster` is modelled
  as an explicit state `Store` mapping an id to a read outcome, and
  stateful functions pass the store explicitly;
* external code that is not part of the repository source
  (`Tools::ratioMatching`, libhaloc's hash `match`, OpenCV's
  `solvePnPRansac` core estimator) enters as function parameters, so every
  theorem quantifies over it; repository code missing from the source tree
  (`loop_closing.h` constants, `Tools::sortByMatching`, `cluster.h`) is
  modelled from the spec and marked as such in its doc comment.
-/

namespace StereoSlam

/-- A 2-D image point (`cv::Point2f`, the `.pt` of a `cv::KeyPoint`). -/
abbrev Point2 : Type := ℚ × ℚ

/-- A 3-D point (`cv::Point3f`). -/
abbrev Point3 : Type := ℚ × ℚ × ℚ

/-- A hash signature (`vector<float>` in the source). -/
abbrev Sig : Type := List ℚ

/-- A rigid transform (`tf::Transform`): rotation matrix plus translation. -/
structure Pose where
  r11 : ℚ
  r12 : ℚ
  r13 : ℚ
  r21 : ℚ
  r22 : ℚ
  r23 : ℚ
  r31 : ℚ
  r32 : ℚ
  r33 : ℚ
  tx : ℚ
  ty : ℚ
  tz : ℚ
deriving DecidableEq

/-- Application of a rigid transform to a point
(`neighbor.getPose() * p_tf` in the source). -/
def Pose.apply (T : Pose) (p : Point3) : Point3 :=
  (T.r11 * p.1 + T.r12 * p.2.1 + T.r13 * p.2.2 + T.tx,
   T.r21 * p.1 + T.r22 * p.2.1 + T.r23 * p.2.2 + T.ty,
   T.r31 * p.1 + T.r32 * p.2.1 + T.r33 * p.2.2 + T.tz)

/-- The identity transform, used for the default-constructed pose. -/
def Pose.id : Pose := ⟨1, 0, 0, 0, 1, 0, 0, 0, 1, 0, 0, 0⟩

/-- One descriptor matrix row. ORB descriptors are byte rows. -/
abbrev DescRow : Type := List ℕ

/-- A keyframe cluster (the `Cluster` entity; `cluster.h` is not part of
the provided source, so the field list follows the constructor call
`Cluster(id, frame_id, pose, kp, desc, empty, points)` in
`LoopClosing::readCluster` together with the spec's data model: id,
source frame id, pose, 2-D keypoints, ORB descriptor matrix, SIFT
descriptor matrix, 3-D points). -/
structure Cluster where
  id : Nat
  frame_id : Nat
  pose : Pose
  kp : List Point2
  orb : List DescRow
  sift : List (List ℚ)
  points : List Point3
deriving DecidableEq

/-- Modelled from the spec: the default-constructed `Cluster()` of
`cluster.h` (not in the source tree) — "a clearly empty/null result",
with empty keypoint/descriptor/point sequences. -/
def emptyCluster : Cluster :=
  ⟨0, 0, Pose.id, [], [], [], []⟩

/-- Outcome of looking a cluster id up in the durable store: the `.yml`
file may be absent (`!fs::exists`), unreadable (`!fs.isOpened()`), or
present with the stored fields (frame id, pose, keypoints, ORB
descriptors, 3-D points — exactly what `processNewCluster` writes). -/
inductive ReadResult where
  | absent : ReadResult
  | unreadable : ReadResult
  | ok (frame_id : Nat) (pose : Pose) (kp : List Point2)
      (desc : List DescRow) (points : List Point3) : ReadResult
deriving DecidableEq

/-- The durable store (the `execution_dir_` directory), as explicit state. -/
abbrev Store : Type := Nat → ReadResult

/-- Embedding of `LoopClosing::readCluster` (source lines 223-252): return
a default cluster when the file is absent or cannot be opened, otherwise
rebuild the cluster from the stored fields (the sixth constructor argument
is the `empty` matrix, so the SIFT field is empty). The store is threaded
through unchanged: the source opens the file read-only and writes nothing. -/
def readCluster (store : Store) (id : Nat) : Cluster × Store :=
  match store id with
  | ReadResult.absent => (emptyCluster, store)
  | ReadResult.unreadable => (emptyCluster, store)
  | ReadResult.ok f p k d pts => (⟨id, f, p, k, d, [], pts⟩, store)

/-- Embedding of `LoopClosing::addClusterToQueue` (source lines 62-66):
`cluster_queue_.push_back(cluster)`. -/
def addClusterToQueue (q : List Cluster) (c : Cluster) : List Cluster :=
  q ++ [c]

/-- Embedding of `LoopClosing::checkNewClusterInQueue` (source lines
68-72): the queue is not empty. -/
def checkNewClusterInQueue (q : List Cluster) : Bool :=
  !q.isEmpty

/-- Embedding of the queue part of `LoopClosing::processNewCluster`
(source lines 74-81): take `cluster_queue_.front()` as the current
cluster and `pop_front()`; on an empty queue the source is never called
(guarded by `checkNewClusterInQueue`), modelled as `none`. -/
def processNewCluster : List Cluster → Option (Cluster × List Cluster)
  | [] => none
  | c :: rest => some (c, rest)

/-- Fuelled driver of the engine's polling loop restricted to queue
consumption: repeatedly pop via `processNewCluster`, collecting the
clusters in the order they become the current cluster. -/
def drainGo : Nat → List Cluster → List Cluster
  | 0, _ => []
  | fuel + 1, q =>
    match processNewCluster q with
    | none => []
    | some (c, rest) => c :: drainGo fuel rest

/-- Process every queued cluster, listing them in processing order. -/
def drainQueue (q : List Cluster) : List Cluster :=
  drainGo q.length q

theorem drainGo_eq_self (q : List Cluster) : drainGo q.length q = q := by
  induction q with
  | nil => rfl
  | cons c rest ih => simp [drainGo, processNewCluster, ih]

theorem foldl_addClusterToQueue (l q : List Cluster) :
    l.foldl addClusterToQueue q = q ++ l := by
  induction l generalizing q with
  | nil => simp
  | cons c rest ih => simp [addClusterToQueue, ih]

/-- C10: the cluster queue is strictly FIFO: `addClusterToQueue` appends
to the back, `processNewCluster` removes exactly the front element and
makes it the current cluster, and draining a queue built by any sequence
of enqueues processes the clusters in exactly their enqueue order. -/
theorem cluster_queue_fifo :
    (∀ (q : List Cluster) (c : Cluster), addClusterToQueue q c = q ++ [c]) ∧
    (∀ (c : Cluster) (rest : List Cluster),
      processNewCluster (c :: rest) = some (c, rest)) ∧
    (∀ (q l : List Cluster), drainQueue (l.foldl addClusterToQueue q) = q ++ l) := by
  refine ⟨fun q c => rfl, fun c rest => rfl, fun q l => ?_⟩
  rw [foldl_addClusterToQueue, drainQueue, drainGo_eq_self]

/-- C8: reading an id whose file is absent from the durable store or
cannot be opened returns the empty/default cluster value instead of
failing, and reading never modifies the store. -/
theorem readCluster_missing_default (store : Store) (id : Nat)
    (h : store id = ReadResult.absent ∨ store id = ReadResult.unreadable) :
    readCluster store id = (emptyCluster, store) := by
  rcases h with h | h <;> simp [readCluster, h]

/-- An all-absent store used as a concrete witness input. -/
def storeEmpty : Store := fun _ => ReadResult.absent

/-- Witness for C8 at a concrete store and id. -/
theorem readCluster_missing_default_witness :
    (storeEmpty 0 = ReadResult.absent ∨ storeEmpty 0 = ReadResult.unreadable) ∧
    readCluster storeEmpty 0 = (emptyCluster, storeEmpty) :=
  ⟨Or.inl rfl, readCluster_missing_default storeEmpty 0 (Or.inl rfl)⟩

/-- Modelled from the spec: the constant `LC_NEIGHBORS` is declared in
`loop_closing.h`, which is not in the source tree; the spec's scenarios
fix it at 5. -/
def LC_NEIGHBORS : Nat := 5

/-- Modelled from the spec: the comparator `Tools::sortByMatching`
(`tools.h` is not in the source tree) — "Sort descending by score (ties
broken by lower id for determinism)". `sortByMatching a b` holds when `a`
may precede `b`. -/
def sortByMatching (a b : Nat × ℚ) : Bool :=
  decide (b.2 < a.2 ∨ (a.2 = b.2 ∧ a.1 ≤ b.1))

/-- Insert an element into a list sorted by the comparator `le`. -/
def insertSorted {α : Type} (le : α → α → Bool) (a : α) : List α → List α
  | [] => [a]
  | b :: bs => if le a b then a :: b :: bs else b :: insertSorted le a bs

/-- Insertion sort by the comparator `le` (models `std::sort` with the
`sortByMatching` comparator: with a total antisymmetric comparator the
sorted result is unique, so the sorting algorithm is irrelevant). -/
def insertionSort {α : Type} (le : α → α → Bool) : List α → List α
  | [] => []
  | a :: as => insertSorted le a (insertionSort le as)

theorem mem_insertSorted {α : Type} (le : α → α → Bool) (a x : α)
    (l : List α) : x ∈ insertSorted le a l ↔ x = a ∨ x ∈ l := by
  induction l with
  | nil => simp [insertSorted]
  | cons b bs ih =>
    simp only [insertSorted]
    split
    · simp
    · simp [ih]
      tauto

theorem mem_insertionSort {α : Type} (le : α → α → Bool) (x : α)
    (l : List α) : x ∈ insertionSort le l ↔ x ∈ l := by
  induction l with
  | nil => simp [insertionSort]
  | cons a as ih => simp [insertionSort, mem_insertSorted, ih]

theorem pairwise_insertSorted {α : Type} (le : α → α → Bool)
    (htot : ∀ a b, le a b = true ∨ le b a = true)
    (htrans : ∀ a b c, le a b = true → le b c = true → le a c = true)
    (a : α) (l : List α) (h : l.Pairwise (fun x y => le x y = true)) :
    (insertSorted le a l).Pairwise (fun x y => le x y = true) := by
  induction l with
  | nil => simp [insertSorted]
  | cons b bs ih =>
    rcases h with _ | ⟨hb, hbs⟩
    simp only [insertSorted]
    split
    · rename_i hab
      refine List.Pairwise.cons ?_ (List.Pairwise.cons hb hbs)
      intro x hx
      rcases List.mem_cons.mp hx with rfl | hx
      · exact hab
      · exact htrans a b x hab (hb x hx)
    · rename_i hab
      have hba : le b a = true := by
        rcases htot a b with h1 | h1
        · exact absurd h1 hab
        · exact h1
      refine List.Pairwise.cons ?_ (ih hbs)
      intro x hx
      rcases (mem_insertSorted le a x bs).mp hx with rfl | hx
      · exact hba
      · exact hb x hx

theorem pairwise_insertionSort {α : Type} (le : α → α → Bool)
    (htot : ∀ a b, le a b = true ∨ le b a = true)
    (htrans : ∀ a b c, le a b = true → le b c = true → le a c = true)
    (l : List α) :
    (insertionSort le l).Pairwise (fun x y => le x y = true) := by
  induction l with
  | nil => simp [insertionSort]
  | cons a as ih =>
    exact pairwise_insertSorted le htot htrans a (insertionSort le as) ih

/-- Embedding of the `no_candidates` construction in
`LoopClosing::getCandidates` (source lines 181-189): for each confirmed
loop closure `(a, b)` in `lc_found_`, push `b` when `a` is the query and
`a` when `b` is the query. -/
def noCandidates : List (Nat × Nat) → Nat → List Nat
  | [], _ => []
  | p :: rest, cid =>
    (if p.1 = cid then [p.2] else []) ++
      (if p.2 = cid then [p.1] else []) ++ noCandidates rest cid

theorem mem_noCandidates (lc : List (Nat × Nat)) (cid x : Nat) :
    x ∈ noCandidates lc cid ↔ (cid, x) ∈ lc ∨ (x, cid) ∈ lc := by
  induction lc with
  | nil => simp [noCandidates]
  | cons p rest ih =>
    rcases p with ⟨a, b⟩
    by_cases ha : a = cid <;> by_cases hb : b = cid <;>
      simp [noCandidates, ha, hb, ih, Prod.ext_iff] <;> tauto

/-- Embedding of `LoopClosing::getCandidates` (source lines 173-221):
skip when the hash table holds `LC_NEIGHBORS` entries or fewer; build the
exclusion list from `lc_found_`; score every table index
`i < size - LC_NEIGHBORS - 1` whose id is neither the query nor excluded,
using the (external, parameterised) libhaloc `hash_.match` against the
query's stored signature; sort with `sortByMatching` and keep the best
`min 5 size` entries. Out-of-range vector accesses (undefined behaviour
in the C++) are modelled total with a `(0, [])` default entry. -/
def getCandidates (hmatch : Sig → Sig → ℚ) (hash_table : List (Nat × Sig))
    (lc_found : List (Nat × Nat)) (cluster_id : Nat) : List (Nat × ℚ) :=
  if hash_table.length ≤ LC_NEIGHBORS then []
  else
    let no_candidates := noCandidates lc_found cluster_id
    let hash_q := (hash_table.getD cluster_id (0, [])).2
    let all_matchings :=
      (List.range (hash_table.length - LC_NEIGHBORS - 1)).filterMap
        (fun i =>
          if hash_table.length - 1 < i then none
          else
            let e := hash_table.getD i (0, [])
            if e.1 = cluster_id then none
            else if e.1 ∈ no_candidates then none
            else some (e.1, hmatch hash_q e.2))
    let max_size := min 5 all_matchings.length
    (insertionSort sortByMatching all_matchings).take max_size

theorem mem_getCandidates (hmatch : Sig → Sig → ℚ)
    (hash_table : List (Nat × Sig)) (lc_found : List (Nat × Nat))
    (cluster_id : Nat) (x : Nat × ℚ)
    (hx : x ∈ getCandidates hmatch hash_table lc_found cluster_id) :
    x.1 ≠ cluster_id ∧ x.1 ∉ noCandidates lc_found cluster_id := by
  unfold getCandidates at hx
  split at hx
  · simp at hx
  · have hx' := (mem_insertionSort _ _ _).mp (List.take_subset _ _ hx)
    rcases List.mem_filterMap.mp hx' with ⟨i, _, hfi⟩
    dsimp only at hfi
    split at hfi
    · exact absurd hfi (by simp)
    · split at hfi
      · exact absurd hfi (by simp)
      · split at hfi
        · exact absurd hfi (by simp)
        · rename_i hne hnc
          have := (Option.some.injEq _ _ ▸ hfi)
          rw [← this]
          exact ⟨hne, hnc⟩

/-- C6: the global candidate search never returns the query id itself as
a candidate. -/
theorem getCandidates_no_self (hmatch : Sig → Sig → ℚ)
    (hash_table : List (Nat × Sig)) (lc_found : List (Nat × Nat))
    (cluster_id : Nat) :
    cluster_id ∉
      (getCandidates hmatch hash_table lc_found cluster_id).map Prod.fst := by
  intro hmem
  rcases List.mem_map.mp hmem with ⟨x, hx, hfst⟩
  exact (mem_getCandidates hmatch hash_table lc_found cluster_id x hx).1 hfst

/-- C4: for any confirmed loop-closure record, the partner id is excluded
from the candidate list of the other endpoint, in both directions. -/
theorem getCandidates_excludes_confirmed (hmatch : Sig → Sig → ℚ)
    (hash_table : List (Nat × Sig)) (lc_found : List (Nat × Nat))
    (cluster_id b : Nat)
    (h : (cluster_id, b) ∈ lc_found ∨ (b, cluster_id) ∈ lc_found) :
    b ∉ (getCandidates hmatch hash_table lc_found cluster_id).map Prod.fst := by
  intro hmem
  rcases List.mem_map.mp hmem with ⟨x, hx, hfst⟩
  have hx' := (mem_getCandidates hmatch hash_table lc_found cluster_id x hx).2
  rw [hfst] at hx'
  exact hx' ((mem_noCandidates lc_found cluster_id b).mpr h)

/-- C3: the candidate search returns the empty list whenever the hash
table holds `LC_NEIGHBORS + 1` entries or fewer: the size guard rejects
tables of at most `LC_NEIGHBORS` entries, and at exactly
`LC_NEIGHBORS + 1` entries the scoring loop's range is empty. -/
theorem getCandidates_small_table_empty (hmatch : Sig → Sig → ℚ)
    (hash_table : List (Nat × Sig)) (lc_found : List (Nat × Nat))
    (cluster_id : Nat) (h : hash_table.length ≤ LC_NEIGHBORS + 1) :
    getCandidates hmatch hash_table lc_found cluster_id = [] := by
  unfold getCandidates
  split
  · rfl
  · rename_i hgt
    have hlen : hash_table.length - LC_NEIGHBORS - 1 = 0 := by omega
    simp [hlen, insertionSort]

/-- A trivial hash-match function used for concrete witness inputs. -/
def hmEx : Sig → Sig → ℚ := fun a b => a.headD 0 + b.headD 0

/-- A hash table with the six entries 0..5, each holding a one-float
signature. -/
def tableEx6 : List (Nat × Sig) :=
  [(0, [0]), (1, [1]), (2, [2]), (3, [3]), (4, [4]), (5, [5])]

/-- Witness for C3: a six-entry table (`LC_NEIGHBORS + 1` entries) yields
an empty candidate list for query id 5. -/
theorem getCandidates_small_table_empty_witness :
    tableEx6.length ≤ LC_NEIGHBORS + 1 ∧
    getCandidates hmEx tableEx6 [] 5 = [] :=
  ⟨by decide, getCandidates_small_table_empty hmEx tableEx6 [] 5 (by decide)⟩

/-- A hash table with the eight entries 0..7. -/
def tableEx8 : List (Nat × Sig) :=
  [(0, [0]), (1, [1]), (2, [2]), (3, [3]), (4, [4]), (5, [5]), (6, [6]),
   (7, [7])]

/-- A loop-closure record set pairing clusters 0 and 7. -/
def lcEx : List (Nat × Nat) := [(7, 0)]

/-- Witness for C4: with the record {7, 0} confirmed, id 0 is excluded
from the candidates of query id 7 (the table is large enough that 0 and 1
would otherwise be scored). -/
theorem getCandidates_excludes_confirmed_witness :
    ((7, 0) ∈ lcEx ∨ (0, 7) ∈ lcEx) ∧
    0 ∉ (getCandidates hmEx tableEx8 lcEx 7).map Prod.fst :=
  ⟨Or.inl (by decide),
   getCandidates_excludes_confirmed hmEx tableEx8 lcEx 7 0
     (Or.inl (by decide))⟩

/-- Witness for C6 at a concrete state: id 7 is absent from its own
candidate list over the eight-entry table. -/
theorem getCandidates_no_self_witness :
    7 ∉ (getCandidates hmEx tableEx8 [] 7).map Prod.fst :=
  getCandidates_no_self hmEx tableEx8 [] 7

/-- The mutable state of the loop-closing engine that `searchByHash` can
reach: the hash table (`hash_table_`), the confirmed loop-closure records
(`lc_found_`), and the pose-graph edges reachable through the `graph_`
pointer (`Graph::addEdge` appends to them). -/
structure LCState where
  hash_table : List (Nat × Sig)
  lc_found : List (Nat × Nat)
  graph_edges : List (Nat × Nat × Nat)
deriving DecidableEq

/-- Embedding of `LoopClosing::searchByHash` (source lines 163-171): get
the candidates for the current cluster id and return when the list is
empty. The source function body ends right after that check — it never
reconstructs a candidate, never verifies it, never appends to `lc_found_`
and never calls `Graph::addEdge` — so the state is returned unchanged on
both branches. -/
def searchByHash (hmatch : Sig → Sig → ℚ) (st : LCState)
    (cluster_id : Nat) : LCState :=
  let hash_matching := getCandidates hmatch st.hash_table st.lc_found cluster_id
  if hash_matching.length = 0 then st
  else st

theorem sortByMatching_total (a b : Nat × ℚ) :
    sortByMatching a b = true ∨ sortByMatching b a = true := by
  simp only [sortByMatching, decide_eq_true_eq]
  rcases lt_trichotomy a.2 b.2 with h | h | h
  · tauto
  · rcases Nat.le_total a.1 b.1 with h1 | h1 <;> tauto
  · tauto

theorem sortByMatching_trans (a b c : Nat × ℚ)
    (hab : sortByMatching a b = true) (hbc : sortByMatching b c = true) :
    sortByMatching a c = true := by
  simp only [sortByMatching, decide_eq_true_eq] at *
  rcases hab with h1 | ⟨h1, h1'⟩ <;> rcases hbc with h2 | ⟨h2, h2'⟩
  · exact Or.inl (lt_trans h2 h1)
  · exact Or.inl (h2 ▸ h1)
  · exact Or.inl (h1 ▸ h2)
  · exact Or.inr ⟨h1.trans h2, h1'.trans h2'⟩

/-- C9: the candidate list holds at most 5 entries, is ordered descending
by similarity score with ties broken by lower id, and when it is empty
`searchByHash` stops, leaving the engine state untouched. -/
theorem getCandidates_top5_sorted_and_stop (hmatch : Sig → Sig → ℚ)
    (st : LCState) (cluster_id : Nat) :
    ((getCandidates hmatch st.hash_table st.lc_found cluster_id).length ≤ 5 ∧
     (getCandidates hmatch st.hash_table st.lc_found cluster_id).Pairwise
       (fun a b => b.2 < a.2 ∨ (a.2 = b.2 ∧ a.1 ≤ b.1))) ∧
    (getCandidates hmatch st.hash_table st.lc_found cluster_id = [] →
      searchByHash hmatch st cluster_id = st) := by
  refine ⟨⟨?_, ?_⟩, ?_⟩
  · unfold getCandidates
    split
    · simp
    · exact le_trans (List.length_take_le _ _) (min_le_left _ _)
  · unfold getCandidates
    split
    · simp
    · refine List.Pairwise.imp (fun h => ?_)
        (List.Pairwise.sublist (List.take_sublist _ _)
          (pairwise_insertionSort sortByMatching sortByMatching_total
            sortByMatching_trans _))
      simpa [sortByMatching, decide_eq_true_eq] using h
  · intro _
    simp [searchByHash]

/-- A concrete engine state whose hash table holds entries 0..5, small
enough that the candidate search comes back empty. -/
def stEx6 : LCState := ⟨tableEx6, [], []⟩

/-- Witness for C9 at a concrete state: the bound, the ordering, and the
empty-list short-circuit of `searchByHash`, with the emptiness hypothesis
discharged by computation. -/
theorem getCandidates_top5_sorted_and_stop_witness :
    ((getCandidates hmEx stEx6.hash_table stEx6.lc_found 5).length ≤ 5 ∧
     (getCandidates hmEx stEx6.hash_table stEx6.lc_found 5).Pairwise
       (fun a b => b.2 < a.2 ∨ (a.2 = b.2 ∧ a.1 ≤ b.1))) ∧
    searchByHash hmEx stEx6 5 = stEx6 :=
  ⟨(getCandidates_top5_sorted_and_stop hmEx stEx6 5).1,
   (getCandidates_top5_sorted_and_stop hmEx stEx6 5).2 (by decide)⟩

/-- A concrete engine state whose hash table holds the seven entries
0..6, so that processing cluster id 6 yields a non-empty candidate list. -/
def stEx7 : LCState :=
  ⟨[(0, [0]), (1, [1]), (2, [2]), (3, [3]), (4, [4]), (5, [5]), (6, [6])],
   [], []⟩

/-- C1 (code divergence): with seven clusters ingested and no prior loop
closures, the candidate search for cluster id 6 returns a non-empty list,
yet `searchByHash` returns with the engine state unchanged: no candidate
is reconstructed or geometrically verified, no Loop-Closure Record is
appended to `lc_found_`, and no loop-closure edge is inserted into the
pose graph — the source function is truncated after the emptiness check. -/
theorem searchByHash_truncated_no_confirmation :
    (getCandidates hmEx stEx7.hash_table stEx7.lc_found 6).length = 1 ∧
    searchByHash hmEx stEx7 6 = stEx7 := by
  constructor
  · decide
  · rfl

/-- A descriptor match (`cv::DMatch`): index of the query-side descriptor
row and index of the train-side descriptor row. -/
structure DMatch where
  queryIdx : Nat
  trainIdx : Nat
deriving DecidableEq

/-- Executable embedding of `round(100.0 * mlen / den)` for the
non-negative integers the source feeds it: round-half-up computed as
`(200 * mlen + den) / (2 * den)` in integer arithmetic.
`m_percentage_eq_round` proves it equal to Mathlib's `round` of the exact
rational, which is what C's `round` computes on these non-negative
values; a zero denominator yields 0 (the gate then fails, matching the
not-greater-than-50 outcome of the float NaN comparison). -/
def m_percentage (mlen den : Nat) : Nat :=
  (200 * mlen + den) / (2 * den)

theorem m_percentage_eq_round (mlen den : ℕ) :
    (m_percentage mlen den : ℤ) = round ((100 * (mlen : ℚ)) / (den : ℚ)) := by
  rcases Nat.eq_zero_or_pos den with h0 | hpos
  · subst h0; simp [m_percentage]
  · have hden : (den : ℚ) ≠ 0 := Nat.cast_ne_zero.mpr (Nat.pos_iff_ne_zero.mp hpos)
    rw [round_eq]
    have h1 : (100 * (mlen : ℚ)) / (den : ℚ) + 1 / 2
        = (((200 * mlen + den : ℕ) : ℤ) : ℚ) / ((2 * den : ℕ) : ℚ) := by
      push_cast
      field_simp
      ring
    rw [h1, Rat.floor_intCast_div_natCast]
    unfold m_percentage
    rw [Int.ofNat_ediv]

theorem m_percentage_zero_matches (den : ℕ) : m_percentage 0 den = 0 := by
  unfold m_percentage
  rcases Nat.eq_zero_or_pos den with h | h
  · subst h; rfl
  · exact Nat.div_eq_of_lt (by omega)

/-- Embedding of the per-neighbor body of
`LoopClosing::searchInNeigborhood` (source lines 123-145): ratio-match
the current cluster's ORB descriptors against the neighbor's (the
matcher `Tools::ratioMatching` is not in the source tree and enters as
the parameter `rm`), compute
`m_percentage = round(100 * matches / min(size_c, size_n))` (floats
modelled by `ℚ`; `round` is round-half-up, which agrees with C's
`round` on these non-negative values), and only when the percentage
exceeds 50 contribute, per match, the current cluster's keypoint at
`queryIdx` and the neighbor's 3-D point at `trainIdx` transformed to
world coordinates by the neighbor's stored pose. -/
def neighborContrib (rm : List DescRow → List DescRow → List DMatch)
    (c neighbor : Cluster) : List Point2 × List Point3 :=
  let dmatches := rm c.orb neighbor.orb
  let size_c := c.orb.length
  let size_n := neighbor.orb.length
  if 50 < m_percentage dmatches.length (min size_c size_n) then
    (dmatches.map (fun m => c.kp.getD m.queryIdx (0, 0)),
     dmatches.map (fun m =>
       Pose.apply neighbor.pose (neighbor.points.getD m.trainIdx (0, 0, 0))))
  else ([], [])

/-- Embedding of the neighbor loop of `LoopClosing::searchInNeigborhood`
(source lines 113-149): walk `neighbor_id` from `id - 1` down to 0 while
fewer than `LC_NEIGHBORS` neighbors have been processed; read each
neighbor from the store; only a neighbor whose frame id differs from the
current cluster's is matched and counted. The first argument is
`neighbor_id + 1`, so `0` encodes the loop exit `neighbor_id < 0`.
Returns the pooled `matched_kp`, the pooled `matched_points`, and the
final `processed_neighbors` counter. -/
def neighborhoodLoop (rm : List DescRow → List DescRow → List DMatch)
    (store : Store) (c : Cluster) :
    Nat → Nat → List Point2 × List Point3 × Nat
  | 0, processed => ([], [], processed)
  | nid + 1, processed =>
    if processed < LC_NEIGHBORS then
      if (readCluster store nid).1.frame_id ≠ c.frame_id then
        let contrib := neighborContrib rm c (readCluster store nid).1
        let rest := neighborhoodLoop rm store c nid (processed + 1)
        (contrib.1 ++ rest.1, contrib.2 ++ rest.2.1, rest.2.2)
      else neighborhoodLoop rm store c nid processed
    else ([], [], processed)

/-- The ids the neighbor loop examines (the iterations that increment
`processed_neighbors`), derived from the same walk as
`neighborhoodLoop`. -/
def examinedIds (store : Store) (cframe : Nat) : Nat → Nat → List Nat
  | 0, _ => []
  | nid + 1, p =>
    if p < LC_NEIGHBORS then
      if (readCluster store nid).1.frame_id ≠ cframe then
        nid :: examinedIds store cframe nid (p + 1)
      else examinedIds store cframe nid p
    else []

theorem examinedIds_characterization (store : Store) (cframe : Nat) :
    ∀ nid1 p : Nat,
    examinedIds store cframe nid1 p =
      (((List.range nid1).reverse).filter
        (fun i => decide ((readCluster store i).1.frame_id ≠ cframe))).take
        (LC_NEIGHBORS - p) := by
  intro nid1
  induction nid1 with
  | zero => intro p; simp [examinedIds]
  | succ nid ih =>
    intro p
    have hrev : (List.range (nid + 1)).reverse =
        nid :: (List.range nid).reverse := by
      rw [List.range_succ, List.reverse_append]
      rfl
    rw [hrev]
    by_cases hp : p < LC_NEIGHBORS
    · by_cases hf : (readCluster store nid).1.frame_id ≠ cframe
      · have hLC : LC_NEIGHBORS - p = (LC_NEIGHBORS - (p + 1)) + 1 := by omega
        simp only [examinedIds, if_pos hp, if_pos hf, List.filter_cons,
          decide_eq_true hf, if_pos rfl, hLC, List.take_succ_cons, ih (p + 1)]
        simp
      · simp only [examinedIds, if_pos hp, if_neg hf, List.filter_cons]
        have : decide ((readCluster store nid).1.frame_id ≠ cframe) = false := by
          simpa using hf
        simp only [this, Bool.false_eq_true, if_neg (by simp : ¬False)]
        simpa using ih p
    · have hLC : LC_NEIGHBORS - p = 0 := by omega
      simp [examinedIds, if_neg hp, hLC]

theorem neighborhoodLoop_decomposition
    (rm : List DescRow → List DescRow → List DMatch) (store : Store)
    (c : Cluster) :
    ∀ nid1 p : Nat,
    neighborhoodLoop rm store c nid1 p =
      (((examinedIds store c.frame_id nid1 p).map
          (fun i => (neighborContrib rm c (readCluster store i).1).1)).flatten,
       ((examinedIds store c.frame_id nid1 p).map
          (fun i => (neighborContrib rm c (readCluster store i).1).2)).flatten,
       p + (examinedIds store c.frame_id nid1 p).length) := by
  intro nid1
  induction nid1 with
  | zero => intro p; simp [neighborhoodLoop, examinedIds]
  | succ nid ih =>
    intro p
    by_cases hp : p < LC_NEIGHBORS
    · by_cases hf : (readCluster store nid).1.frame_id ≠ c.frame_id
      · simp only [neighborhoodLoop, examinedIds, if_pos hp, if_pos hf,
          ih (p + 1), List.map_cons, List.flatten]
        refine Prod.ext rfl (Prod.ext rfl ?_)
        simp
        omega
      · simp only [neighborhoodLoop, examinedIds, if_pos hp, if_neg hf]
        exact ih p
    · simp [neighborhoodLoop, examinedIds, if_neg hp]

/-- C5: in the neighborhood search the examined neighbors are exactly the
ids `id - 1` down to `0`, in that order, restricted to neighbors whose
frame id differs from the current cluster's, truncated after
`LC_NEIGHBORS` of them; the `processed_neighbors` counter counts exactly
those examined ids; and the pooled keypoints and 3-D points are exactly
the concatenated contributions of those examined (distinct-frame)
neighbors, so a same-frame neighbor is never matched. -/
theorem neighborhood_walk_characterization
    (rm : List DescRow → List DescRow → List DMatch) (store : Store)
    (c : Cluster) :
    examinedIds store c.frame_id c.id 0 =
      (((List.range c.id).reverse).filter
        (fun i => decide ((readCluster store i).1.frame_id ≠ c.frame_id))).take
        LC_NEIGHBORS ∧
    (neighborhoodLoop rm store c c.id 0).2.2 =
      (examinedIds store c.frame_id c.id 0).length ∧
    (neighborhoodLoop rm store c c.id 0).1 =
      ((examinedIds store c.frame_id c.id 0).map
        (fun i => (neighborContrib rm c (readCluster store i).1).1)).flatten ∧
    (neighborhoodLoop rm store c c.id 0).2.1 =
      ((examinedIds store c.frame_id c.id 0).map
        (fun i => (neighborContrib rm c (readCluster store i).1).2)).flatten := by
  have hd := neighborhoodLoop_decomposition rm store c c.id 0
  refine ⟨?_, ?_, ?_, ?_⟩
  · simpa using examinedIds_characterization store c.frame_id c.id 0
  · rw [hd]; simp
  · rw [hd]
  · rw [hd]

/-- Modelled from the spec: the core RANSAC perspective pose estimator
(OpenCV's `cv::solvePnPRansac`, external to the repository). Fewer than 4
correspondences is degenerate: the estimator signals an error (`none`)
instead of producing inliers; on a non-degenerate pool the inlier result
comes from the abstract estimator parameter `est`. -/
def solvePnPRansac (est : List Point3 → List Point2 → List Nat)
    (object_points : List Point3) (image_points : List Point2) :
    Option (List Nat) :=
  if object_points.length < 4 then none
  else some (est object_points image_points)

/-- Embedding of `LoopClosing::searchInNeigborhood` (source lines
100-160): pool the matched correspondences over the neighbor walk and
then call `solvePnPRansac(matched_points, matched_kp, ...)` directly —
the source contains no emptiness or size guard before the call. -/
def searchInNeigborhood (rm : List DescRow → List DescRow → List DMatch)
    (est : List Point3 → List Point2 → List Nat) (store : Store)
    (c : Cluster) : Option (List Nat) :=
  let r := neighborhoodLoop rm store c c.id 0
  solvePnPRansac est r.2.1 r.1

/-- A matcher that never finds matches, for concrete inputs. -/
def rmNone : List DescRow → List DescRow → List DMatch := fun _ _ => []

/-- An estimator returning no inliers, for concrete inputs. -/
def estZero : List Point3 → List Point2 → List Nat := fun _ _ => []

/-- C2 (code divergence): for the very first cluster (id 0) the pooled
correspondence set is empty, yet `searchInNeigborhood` still invokes the
RANSAC solver on the degenerate (0 < 4 correspondences) pool — the
result is the solver's error outcome, not a short-circuited
zero-inlier report: the source has no guard before `solvePnPRansac`. -/
theorem searchInNeigborhood_degenerate_invokes_solver :
    (neighborhoodLoop rmNone storeEmpty emptyCluster emptyCluster.id 0).2.1 =
      [] ∧
    searchInNeigborhood rmNone estZero storeEmpty emptyCluster = none := by
  exact ⟨rfl, rfl⟩

theorem neighborContrib_eq (rm : List DescRow → List DescRow → List DMatch)
    (c nb : Cluster) :
    neighborContrib rm c nb =
      if 50 < m_percentage (rm c.orb nb.orb).length
          (min c.orb.length nb.orb.length) then
        ((rm c.orb nb.orb).map (fun m => c.kp.getD m.queryIdx (0, 0)),
         (rm c.orb nb.orb).map (fun m =>
           Pose.apply nb.pose (nb.points.getD m.trainIdx (0, 0, 0))))
      else ([], []) := rfl

/-- A matcher returning 126 matches, used to exhibit a match count whose
exact percentage is 50.4. -/
def rm126 : List DescRow → List DescRow → List DMatch :=
  fun _ _ => List.replicate 126 ⟨0, 0⟩

/-- A current cluster with 250 descriptor rows on frame 1. -/
def cEx7 : Cluster :=
  ⟨1, 1, Pose.id, [], List.replicate 250 [], [], []⟩

/-- A store holding one neighbor (id 0, frame 0) with 300 descriptor
rows. -/
def storeC7 : Store := fun i =>
  if i = 0 then ReadResult.ok 0 Pose.id [] (List.replicate 300 []) []
  else ReadResult.absent

/-- Counterexample to C7 as stated: the examined distinct-frame neighbor
has 126 ratio-test matches against descriptor counts 250 and 300, so the
exact percentage `100 * 126 / 250 = 50.4` exceeds 50, yet the neighbor
contributes nothing — the code compares the rounded percentage
`round(50.4) = 50`, which does not exceed 50. -/
theorem neighbor_gate_counterexample :
    (readCluster storeC7 0).1.frame_id = 0 ∧ cEx7.frame_id = 1 ∧
    (50 : ℚ) <
      100 * ((rm126 cEx7.orb (readCluster storeC7 0).1.orb).length : ℚ) /
        ((min cEx7.orb.length (readCluster storeC7 0).1.orb.length : ℕ) : ℚ) ∧
    neighborhoodLoop rm126 storeC7 cEx7 cEx7.id 0 = ([], [], 1) := by
  refine ⟨by decide, by decide, ?_, by set_option maxRecDepth 4000 in decide⟩
  simp only [rm126, cEx7, storeC7, readCluster, List.length_replicate]
  norm_num

/-- C7 as amended: an examined neighbor contributes its matched
correspondences if and only if the rounded match percentage
`round(100 * matches / min(size_c, size_n))` exceeds 50, and when it
does, the contribution pairs, per match, the current cluster's keypoint
at `queryIdx` with the neighbor's 3-D point at `trainIdx` transformed
into world coordinates by the neighbor's stored pose. -/
theorem neighbor_contributes_iff_rounded_percentage
    (rm : List DescRow → List DescRow → List DMatch) (c nb : Cluster) :
    (neighborContrib rm c nb ≠ ([], []) ↔
      50 < round (100 * ((rm c.orb nb.orb).length : ℚ) /
        ((min c.orb.length nb.orb.length : ℕ) : ℚ))) ∧
    (50 < round (100 * ((rm c.orb nb.orb).length : ℚ) /
        ((min c.orb.length nb.orb.length : ℕ) : ℚ)) →
      neighborContrib rm c nb =
        ((rm c.orb nb.orb).map (fun m => c.kp.getD m.queryIdx (0, 0)),
         (rm c.orb nb.orb).map (fun m =>
           Pose.apply nb.pose (nb.points.getD m.trainIdx (0, 0, 0))))) := by
  have hcast : (50 < round (100 * ((rm c.orb nb.orb).length : ℚ) /
      ((min c.orb.length nb.orb.length : ℕ) : ℚ))) ↔
      50 < m_percentage (rm c.orb nb.orb).length
        (min c.orb.length nb.orb.length) := by
    rw [← m_percentage_eq_round]
    exact ⟨fun h => by exact_mod_cast h, fun h => by exact_mod_cast h⟩
  rw [neighborContrib_eq, hcast]
  by_cases hgate : 50 < m_percentage (rm c.orb nb.orb).length
      (min c.orb.length nb.orb.length)
  · refine ⟨⟨fun _ => hgate, fun _ => ?_⟩, fun _ => by rw [if_pos hgate]⟩
    rw [if_pos hgate]
    have hne : rm c.orb nb.orb ≠ [] := by
      intro hnil
      rw [hnil] at hgate
      simp only [List.length_nil, m_percentage_zero_matches] at hgate
      exact absurd hgate (by omega)
    intro hpair
    have h1 : (rm c.orb nb.orb).map (fun m => c.kp.getD m.queryIdx (0, 0))
        = [] := congrArg Prod.fst hpair
    exact hne (List.map_eq_nil_iff.mp h1)
  · refine ⟨⟨fun hne => ?_, fun hg => absurd hg hgate⟩,
      fun hg => absurd hg hgate⟩
    rw [if_neg hgate] at hne
    exact absurd rfl hne

/-- A matcher that matches both of the current cluster's descriptor rows. -/
def rmW : List DescRow → List DescRow → List DMatch :=
  fun _ _ => [⟨0, 0⟩, ⟨1, 1⟩]

/-- A current cluster with two keypoints and two descriptor rows. -/
def cW : Cluster :=
  ⟨1, 1, Pose.id, [(1, 2), (3, 4)], [[0], [1]], [], []⟩

/-- A neighbor cluster with three descriptor rows and two 3-D points. -/
def nbW : Cluster :=
  ⟨0, 0, Pose.id, [], [[2], [3], [4]], [], [(1, 1, 1), (2, 2, 2)]⟩

/-- Witness for the amended C7: with 2 matches over descriptor counts 2
and 3, the rounded percentage is 100 > 50, the neighbor contributes, and
the contribution is the matched keypoint/world-point pairs. -/
theorem neighbor_contributes_iff_rounded_percentage_witness :
    neighborContrib rmW cW nbW ≠ ([], []) ∧
    neighborContrib rmW cW nbW =
      ((rmW cW.orb nbW.orb).map (fun m => cW.kp.getD m.queryIdx (0, 0)),
       (rmW cW.orb nbW.orb).map (fun m =>
         Pose.apply nbW.pose (nbW.points.getD m.trainIdx (0, 0, 0)))) :=
  ⟨(neighbor_contributes_iff_rounded_percentage rmW cW nbW).1.mpr
     (by rw [← m_percentage_eq_round]; decide),
   (neighbor_contributes_iff_rounded_percentage rmW cW nbW).2
     (by rw [← m_percentage_eq_round]; decide)⟩

end StereoSlam
